import Mathlib

/-!
# Verified model of the chapter-02 reliability layer

Shallow embedding of the resilience primitives in
`code-examples/chapter-02-reliability/complete/`:

* `circuit_breaker.py` — the in-memory `CircuitBreaker` state machine;
* `circuit_breaker_redis.py` — the Redis-backed `RedisCircuitBreaker`;
* `retry.py` — `retry_with_backoff`;
* `rate_limiter.py` — the `TokenBucket` rate limiter.

Modelling conventions:

* Wall-clock readings (`time.time()`) become explicit rational parameters;
  each breaker call takes one clock reading `now`, used both for the
  recovery check and for recording `last_failure_time`.
* An execution of the wrapped function is represented by its outcome
  (`CallOutcome`): either a returned value or a raised exception value.
  Exception classification (`isinstance(e, expected_exception)` and the
  `except retryable_exceptions` clause) becomes a Boolean predicate on the
  exception type.
* Python floats are modelled as rationals; the claims under study are
  control-flow properties, not rounding properties.
* `threading.Lock` is dropped: the claims concern a single sequential
  caller, and under the lock each locked section is atomic anyway.
-/

/-- States of the circuit breaker (`CircuitState` in `circuit_breaker.py`).
`OPEN` is spelled `opened` because `open` is a Lean keyword. -/
inductive CircuitState where
  | closed
  | opened
  | halfOpen
deriving DecidableEq, Repr

/-- Immutable configuration of a `CircuitBreaker`
(`failure_threshold`, `recovery_timeout`, `success_threshold` in
`CircuitBreaker.__init__`). The `expected_exception` classifier is passed
separately as a predicate. -/
structure BreakerConfig where
  failure_threshold : ℕ
  recovery_timeout : ℚ
  success_threshold : ℕ
deriving DecidableEq, Repr

/-- Mutable state of a `CircuitBreaker`
(`self.state`, `self.failure_count`, `self.success_count`,
`self.last_failure_time`). -/
structure BreakerState where
  state : CircuitState
  failure_count : ℕ
  success_count : ℕ
  last_failure_time : Option ℚ
deriving DecidableEq, Repr

/-- State set up by `CircuitBreaker.__init__`: CLOSED, zero counters,
no recorded failure. -/
def initialBreakerState : BreakerState :=
  { state := CircuitState.closed
    failure_count := 0
    success_count := 0
    last_failure_time := none }

/-- Outcome of executing the wrapped function once: it either returns a
value or raises an exception. -/
inductive CallOutcome (α ε : Type) where
  | ok (v : α)
  | exn (e : ε)
deriving DecidableEq, Repr

/-- What `CircuitBreaker.call` does from the caller's point of view:
return the wrapped function's result, raise `CircuitBreakerError` without
invoking it, propagate the exception the wrapped function raised, or crash
with `TypeError` (the Python code computes `time.time() - None` if the
state is OPEN while `last_failure_time` is `None`; that state is
unreachable from `__init__`). -/
inductive CallResult (α ε : Type) where
  | ret (v : α)
  | circuitBreakerError
  | raised (e : ε)
  | typeError
deriving DecidableEq, Repr

/-- Result of the admission phase of a breaker call (the locked check at
the top of `call`, before the wrapped function runs): reject with
`CircuitBreakerError`, crash (`time.time() - None`), or proceed with a
possibly updated state. -/
inductive Admission (σ : Type) where
  | rejectOpen
  | rejectNone
  | proceed (s : σ)
deriving DecidableEq, Repr

/-- Admission phase of `CircuitBreaker.call` (circuit_breaker.py,
lines 101–119): while OPEN, either transition to HALF_OPEN when the
recovery timeout has elapsed since the last failure, or reject. -/
def CircuitBreaker.admitPhase (cfg : BreakerConfig) (s : BreakerState) (now : ℚ) :
    Admission BreakerState :=
  if s.state = CircuitState.opened then
    match s.last_failure_time with
    | none => Admission.rejectNone
    | some lf =>
      if now - lf ≥ cfg.recovery_timeout then
        Admission.proceed { s with state := CircuitState.halfOpen
                                   success_count := 0 }
      else
        Admission.rejectOpen
  else
    Admission.proceed s

/-- Success bookkeeping of `CircuitBreaker.call` (circuit_breaker.py,
lines 126–139). -/
def CircuitBreaker.onSuccess (cfg : BreakerConfig) (s1 : BreakerState) :
    BreakerState :=
  if s1.state = CircuitState.halfOpen then
    let sc := s1.success_count + 1
    if sc ≥ cfg.success_threshold then
      { s1 with success_count := sc, failure_count := 0
                state := CircuitState.closed }
    else
      { s1 with success_count := sc }
  else
    { s1 with failure_count := 0 }

/-- Failure bookkeeping of `CircuitBreaker.call`
(`except self.expected_exception`, circuit_breaker.py, lines 143–162). -/
def CircuitBreaker.onFailure (cfg : BreakerConfig) (s1 : BreakerState)
    (now : ℚ) : BreakerState :=
  let fc := s1.failure_count + 1
  let s2 := { s1 with failure_count := fc, last_failure_time := some now
                      success_count := 0 }
  if fc ≥ cfg.failure_threshold then
    { s2 with state := CircuitState.opened }
  else s2

/-- Shallow embedding of `CircuitBreaker.call` (circuit_breaker.py,
lines 81–164).  Inputs: configuration, the `expected_exception` classifier,
the breaker state, the clock reading `now`, and the outcome the wrapped
function would produce if invoked.  Output: the new breaker state, the
result surfaced to the caller, and whether the wrapped function was
invoked. -/
def CircuitBreaker.call {α ε : Type} (cfg : BreakerConfig) (expected : ε → Bool)
    (s : BreakerState) (now : ℚ) (outcome : CallOutcome α ε) :
    BreakerState × CallResult α ε × Bool :=
  match CircuitBreaker.admitPhase cfg s now with
  | Admission.rejectNone => (s, CallResult.typeError, false)
  | Admission.rejectOpen => (s, CallResult.circuitBreakerError, false)
  | Admission.proceed s1 =>
    -- The wrapped function executes here, outside the lock.
    match outcome with
    | CallOutcome.ok v => (CircuitBreaker.onSuccess cfg s1, CallResult.ret v, true)
    | CallOutcome.exn e =>
      if expected e then
        (CircuitBreaker.onFailure cfg s1 now, CallResult.raised e, true)
      else
        -- Exception does not match `expected_exception`: it propagates out
        -- of `call` without entering the failure handler.
        (s1, CallResult.raised e, true)

/-- Run a sequence of breaker calls: each event is a clock reading paired
with the outcome the wrapped function would produce.  Returns the final
breaker state and the per-call results (result, function-invoked flag). -/
def runCalls {α ε : Type} (cfg : BreakerConfig) (expected : ε → Bool) :
    BreakerState → List (ℚ × CallOutcome α ε) →
    BreakerState × List (CallResult α ε × Bool)
  | s, [] => (s, [])
  | s, (t, o) :: rest =>
    let step := CircuitBreaker.call cfg expected s t o
    let tail := runCalls cfg expected step.1 rest
    (tail.1, (step.2.1, step.2.2) :: tail.2)

/-- Final breaker state after a sequence of calls. -/
def runState {α ε : Type} (cfg : BreakerConfig) (expected : ε → Bool)
    (s : BreakerState) (tr : List (ℚ × CallOutcome α ε)) : BreakerState :=
  (runCalls cfg expected s tr).1

/-- A small concrete exception universe for witnesses: the
`CircuitBreakerError` control-flow signal and ordinary application errors. -/
inductive PyExc where
  | circuitBreakerError
  | apiError (code : ℕ)
  | valueError
  | typeError
deriving DecidableEq, Repr

/-- Classifier for `expected_exception = APIError`-style configuration:
only `apiError` counts as a breaker failure. -/
def isApiError : PyExc → Bool
  | PyExc.apiError _ => true
  | _ => false

/-! ## Retry with exponential backoff (`retry.py`) -/

/-- Configuration of `retry_with_backoff` (retry.py, lines 23–30); the
`retryable_exceptions` classifier is passed separately as a predicate. -/
structure RetryConfig where
  max_retries : ℕ
  initial_delay : ℚ
  max_delay : ℚ
  exponential_base : ℚ
  jitter : Bool
deriving DecidableEq, Repr

/-- The pre-jitter backoff delay computed at retry attempt `attempt`
(retry.py, lines 76–79): `min(initial_delay * exponential_base ** attempt,
max_delay)`. -/
def backoffDelay (cfg : RetryConfig) (attempt : ℕ) : ℚ :=
  min (cfg.initial_delay * cfg.exponential_base ^ attempt) cfg.max_delay

/-- The delay actually slept before the next attempt (retry.py,
lines 82–83): the backoff delay, multiplied by `0.5 + random.random()*0.5`
when jitter is enabled.  `rand attempt` models the `random.random()` draw
made while handling the failure of that attempt. -/
def sleptDelay (cfg : RetryConfig) (rand : ℕ → ℚ) (attempt : ℕ) : ℚ :=
  let d := backoffDelay cfg attempt
  if cfg.jitter then d * (1/2 + rand attempt * (1/2)) else d

/-- What the retry wrapper surfaces to its caller: the wrapped function's
value, or a raised exception (either re-raised immediately as
non-retryable, or the `last_exception` after exhaustion). -/
inductive RetryResult (α ε : Type) where
  | ok (v : α)
  | raised (e : ε)
deriving DecidableEq, Repr

/-- Shallow embedding of the loop body of `retry_with_backoff`'s `wrapper`
(retry.py, lines 52–113), as a recursion on `left = max_retries - attempt`
(so `left = 0` exactly when `attempt == max_retries`).  The wrapped
function may be stateful: `f` maps a state and the attempt index to a new
state and the attempt's outcome (this lets a circuit breaker be the
wrapped function).  Returns the final wrapped-function state, the result,
the number of invocations of the wrapped function, and the list of slept
backoff delays in order. -/
def retryAux {σ α ε : Type} (cfg : RetryConfig) (retryable : ε → Bool)
    (rand : ℕ → ℚ) (f : σ → ℕ → σ × CallOutcome α ε) :
    ℕ → ℕ → σ → σ × RetryResult α ε × ℕ × List ℚ
  | attempt, 0, s =>
    -- Final allowed attempt (`attempt == max_retries`).
    let step := f s attempt
    match step.2 with
    | CallOutcome.ok v => (step.1, RetryResult.ok v, 1, [])
    | CallOutcome.exn e =>
      if retryable e then
        -- `break`, then `raise last_exception` after the loop.
        (step.1, RetryResult.raised e, 1, [])
      else
        -- `except Exception`: non-retryable, re-raise immediately.
        (step.1, RetryResult.raised e, 1, [])
  | attempt, left + 1, s =>
    let step := f s attempt
    match step.2 with
    | CallOutcome.ok v => (step.1, RetryResult.ok v, 1, [])
    | CallOutcome.exn e =>
      if retryable e then
        let d := sleptDelay cfg rand attempt
        let rest := retryAux cfg retryable rand f (attempt + 1) left step.1
        (rest.1, rest.2.1, rest.2.2.1 + 1, d :: rest.2.2.2)
      else
        (step.1, RetryResult.raised e, 1, [])

/-- One full run of `retry_with_backoff(cfg)(f)` starting from
wrapped-function state `s`. -/
def retry_with_backoff {σ α ε : Type} (cfg : RetryConfig) (retryable : ε → Bool)
    (rand : ℕ → ℚ) (f : σ → ℕ → σ × CallOutcome α ε) (s : σ) :
    σ × RetryResult α ε × ℕ × List ℚ :=
  retryAux cfg retryable rand f 0 cfg.max_retries s

/-- The default `retryable_exceptions = (Exception,)` of
`retry_with_backoff`: every exception in our universe is an `Exception`
(Python exception classes derive from it), so every exception matches. -/
def defaultRetryable : PyExc → Bool := fun _ => true

/-! ## Token bucket rate limiter (`rate_limiter.py`) -/

/-- State of a `TokenBucket`: `self.rate`, `self.capacity`, `self.tokens`,
`self.last_update`. -/
structure TokenBucket where
  rate : ℚ
  capacity : ℚ
  tokens : ℚ
  last_update : ℚ
deriving DecidableEq, Repr

/-- `TokenBucket.__init__` (rate_limiter.py, lines 34–52).
`self.capacity = capacity or rate` is Python truthiness: both `None` and
`0` fall back to `rate`.  `self.tokens = initial_tokens if initial_tokens
is not None else self.capacity` tests only for `None`.  `now` models the
`time.time()` stored into `last_update`. -/
def TokenBucket.init (rate : ℚ) (capacity : Option ℚ)
    (initial_tokens : Option ℚ) (now : ℚ) : TokenBucket :=
  let cap : ℚ :=
    match capacity with
    | none => rate
    | some c => if c = 0 then rate else c
  { rate := rate
    capacity := cap
    tokens :=
      match initial_tokens with
      | none => cap
      | some t0 => t0
    last_update := now }

/-- `TokenBucket._refill` (rate_limiter.py, lines 54–62):
`tokens = min(capacity, tokens + elapsed * rate)`, `last_update = now`. -/
def TokenBucket._refill (b : TokenBucket) (now : ℚ) : TokenBucket :=
  let elapsed := now - b.last_update
  let new_tokens := elapsed * b.rate
  { b with tokens := min b.capacity (b.tokens + new_tokens)
           last_update := now }

/-- The locked section of one iteration of `TokenBucket.consume`
(rate_limiter.py, lines 86–111): refill, then consume `n` tokens if
available.  Returns whether the consume succeeded together with the
updated bucket. -/
def TokenBucket.tryConsume (b : TokenBucket) (now : ℚ) (n : ℚ) :
    Bool × TokenBucket :=
  let b1 := b._refill now
  if b1.tokens ≥ n then (true, { b1 with tokens := b1.tokens - n })
  else (false, b1)

/-- The `while True` loop of `TokenBucket.consume` (rate_limiter.py,
lines 85–139).  Each loop iteration reads the clock twice: once inside
`_refill` and once for the timeout check (`time.time() - start_time`);
`iters` supplies these pairs, one per iteration.  An empty `iters` means
the loop is still running (so a real non-terminating execution is the one
whose result is `none` for every finite iteration list). -/
def TokenBucket.consumeLoop (n : ℚ) (block : Bool) (timeout : Option ℚ)
    (start_time : ℚ) : TokenBucket → List (ℚ × ℚ) → Option (Bool × TokenBucket)
  | _, [] => none
  | b, (tRefill, tCheck) :: rest =>
    let step := b.tryConsume tRefill n
    if step.1 then some (true, step.2)
    else if block = false then some (false, step.2)
    else
      match timeout with
      | some t =>
        if tCheck - start_time ≥ t then some (false, step.2)
        else TokenBucket.consumeLoop n block timeout start_time step.2 rest
      | none => TokenBucket.consumeLoop n block timeout start_time step.2 rest

/-- `TokenBucket.consume(tokens=n, block=block, timeout=timeout)`, with
`start_time` the `time.time()` read on entry and `iters` the clock
readings of the successive loop iterations. -/
def TokenBucket.consume (b : TokenBucket) (n : ℚ) (block : Bool)
    (timeout : Option ℚ) (start_time : ℚ) (iters : List (ℚ × ℚ)) :
    Option (Bool × TokenBucket) :=
  TokenBucket.consumeLoop n block timeout start_time b iters

/-- `TokenBucket.get_available_tokens` (rate_limiter.py, lines 141–145):
refill, then report the token count. -/
def TokenBucket.get_available_tokens (b : TokenBucket) (now : ℚ) :
    ℚ × TokenBucket :=
  let b1 := b._refill now
  (b1.tokens, b1)

/-- One primitive observation step on a bucket: a single check iteration
of `consume` (which is all a non-blocking `consume` does, and what each
iteration of a blocking `consume` does), or `get_available_tokens`. -/
inductive BucketOp where
  | consume (now : ℚ) (n : ℚ)
  | getAvail (now : ℚ)
deriving DecidableEq, Repr

/-- Clock reading of an operation. -/
def BucketOp.time : BucketOp → ℚ
  | BucketOp.consume t _ => t
  | BucketOp.getAvail t => t

/-- Tokens requested by an operation (`0` for an observation). -/
def BucketOp.amount : BucketOp → ℚ
  | BucketOp.consume _ n => n
  | BucketOp.getAvail _ => 0

/-- Apply one operation to the bucket. -/
def TokenBucket.step (b : TokenBucket) : BucketOp → TokenBucket
  | BucketOp.consume t n => (b.tryConsume t n).2
  | BucketOp.getAvail t => (b.get_available_tokens t).2

/-- Run a sequence of operations, collecting the token count observable
after each operation. -/
def TokenBucket.runOps : TokenBucket → List BucketOp → TokenBucket × List ℚ
  | b, [] => (b, [])
  | b, op :: rest =>
    let b1 := b.step op
    let tail := TokenBucket.runOps b1 rest
    (tail.1, b1.tokens :: tail.2)

/-- Operation times are non-decreasing starting from clock value `t`, and
every consume requests a non-negative amount. -/
def ChronoOps (t : ℚ) : List BucketOp → Prop
  | [] => True
  | op :: rest => t ≤ op.time ∧ 0 ≤ op.amount ∧ ChronoOps op.time rest

/-! ## Redis-backed circuit breaker (`circuit_breaker_redis.py`)

The shared key-value store holds four scalar keys per breaker; an absent
key is `none`.  Counter accessors follow the Python helpers:
`_get_failures`/`_get_successes` return `int(count) if count else 0`
(absent key → 0), `INCR` on an absent key yields 1, and
`_get_last_failure_time` returns the stored float when the key is present
(the stored byte string is always non-empty, so its truthiness test only
filters out the absent key). -/

/-- The four Redis keys of one `RedisCircuitBreaker`
(`{name}:state`, `{name}:failures`, `{name}:successes`,
`{name}:last_failure`); `none` models an absent key. -/
structure RedisStore where
  state : Option CircuitState
  failures : Option ℤ
  successes : Option ℤ
  last_failure : Option ℚ
deriving DecidableEq, Repr

/-- A store with no keys set (fresh Redis database). -/
def emptyStore : RedisStore :=
  { state := none, failures := none, successes := none, last_failure := none }

/-- Key initialization in `RedisCircuitBreaker.__init__` (lines 99–103):
if the state key does not exist, set state CLOSED and zero both
counters.  `last_failure` is left untouched. -/
def RedisStore.init (r : RedisStore) : RedisStore :=
  if r.state = none then
    { r with state := some CircuitState.closed
             failures := some 0
             successes := some 0 }
  else r

/-- `RedisCircuitBreaker._get_state`: absent key reads as CLOSED. -/
def RedisStore.getState (r : RedisStore) : CircuitState :=
  r.state.getD CircuitState.closed

/-- Admission phase of `RedisCircuitBreaker.call`
(circuit_breaker_redis.py, lines 170–187).  Note the Python truthiness
test on line 175, `if last_failure and (time.time() - last_failure >=
self.recovery_timeout)`: a stored timestamp of `0.0` is falsy, so it
disables the recovery transition just like an absent key does (the branch
then rejects with `CircuitBreakerError`, never crashing). -/
def RedisCircuitBreaker.admitPhase (cfg : BreakerConfig) (r : RedisStore)
    (now : ℚ) : Admission RedisStore :=
  if r.getState = CircuitState.opened then
    match r.last_failure with
    | some lf =>
      if lf ≠ 0 ∧ now - lf ≥ cfg.recovery_timeout then
        Admission.proceed { r with state := some CircuitState.halfOpen
                                   successes := some 0 }
      else
        Admission.rejectOpen
    | none => Admission.rejectOpen
  else
    Admission.proceed r

/-- Success handling of `RedisCircuitBreaker.call`
(circuit_breaker_redis.py, lines 193–206): re-read the state, then update
counters through the store. -/
def RedisCircuitBreaker.onSuccess (cfg : BreakerConfig) (r1 : RedisStore) :
    RedisStore :=
  if r1.getState = CircuitState.halfOpen then
    if r1.successes.getD 0 + 1 ≥ (cfg.success_threshold : ℤ) then
      { r1 with successes := some (r1.successes.getD 0 + 1)
                state := some CircuitState.closed
                failures := some 0 }
    else
      { r1 with successes := some (r1.successes.getD 0 + 1) }
  else
    { r1 with failures := some 0 }

/-- Failure handling of `RedisCircuitBreaker.call`
(circuit_breaker_redis.py, lines 210–228): `INCR` the failure counter
(1 on an absent key), record the failure time, reset successes, and open
the circuit when the threshold is reached. -/
def RedisCircuitBreaker.onFailure (cfg : BreakerConfig) (r1 : RedisStore)
    (now : ℚ) : RedisStore :=
  if r1.failures.getD 0 + 1 ≥ (cfg.failure_threshold : ℤ) then
    { r1 with failures := some (r1.failures.getD 0 + 1)
              last_failure := some now
              successes := some 0
              state := some CircuitState.opened }
  else
    { r1 with failures := some (r1.failures.getD 0 + 1)
              last_failure := some now
              successes := some 0 }

/-- Shallow embedding of `RedisCircuitBreaker.call`
(circuit_breaker_redis.py, lines 151–228).  Same interface as
`CircuitBreaker.call`. -/
def RedisCircuitBreaker.call {α ε : Type} (cfg : BreakerConfig)
    (expected : ε → Bool) (r : RedisStore) (now : ℚ)
    (outcome : CallOutcome α ε) : RedisStore × CallResult α ε × Bool :=
  match RedisCircuitBreaker.admitPhase cfg r now with
  | Admission.rejectNone => (r, CallResult.typeError, false)
  | Admission.rejectOpen => (r, CallResult.circuitBreakerError, false)
  | Admission.proceed r1 =>
    match outcome with
    | CallOutcome.ok v =>
      (RedisCircuitBreaker.onSuccess cfg r1, CallResult.ret v, true)
    | CallOutcome.exn e =>
      if expected e then
        (RedisCircuitBreaker.onFailure cfg r1 now, CallResult.raised e, true)
      else
        (r1, CallResult.raised e, true)

/-- Run a sequence of calls through the Redis-backed breaker. -/
def runRedisCalls {α ε : Type} (cfg : BreakerConfig) (expected : ε → Bool) :
    RedisStore → List (ℚ × CallOutcome α ε) →
    RedisStore × List (CallResult α ε × Bool)
  | r, [] => (r, [])
  | r, (t, o) :: rest =>
    let step := RedisCircuitBreaker.call cfg expected r t o
    let tail := runRedisCalls cfg expected step.1 rest
    (tail.1, (step.2.1, step.2.2) :: tail.2)

/-- The in-memory breaker state a Redis store denotes: absent keys read as
their defaults, counters are clamped to naturals. -/
def RedisStore.abs (r : RedisStore) : BreakerState :=
  { state := r.getState
    failure_count := (r.failures.getD 0).toNat
    success_count := (r.successes.getD 0).toNat
    last_failure_time := r.last_failure }

/-- Concrete breaker configuration used by several witnesses:
`failure_threshold=2, recovery_timeout=60, success_threshold=1`. -/
def breakerCfg1 : BreakerConfig :=
  { failure_threshold := 2, recovery_timeout := 60, success_threshold := 1 }

/-- Concrete breaker configuration with `failure_threshold=1,
recovery_timeout=1, success_threshold=2`. -/
def breakerCfg2 : BreakerConfig :=
  { failure_threshold := 1, recovery_timeout := 1, success_threshold := 2 }

/-- Concrete breaker configuration with `failure_threshold=1,
recovery_timeout=1, success_threshold=1`. -/
def breakerCfg3 : BreakerConfig :=
  { failure_threshold := 1, recovery_timeout := 1, success_threshold := 1 }

/-- The tripped-circuit invariant: whenever the breaker is OPEN or
HALF_OPEN, the failure count has reached the threshold.  (The count is
only reset on the HalfOpen-to-Closed transition.) -/
def TrippedInv (cfg : BreakerConfig) (s : BreakerState) : Prop :=
  (s.state = CircuitState.opened ∨ s.state = CircuitState.halfOpen) →
    cfg.failure_threshold ≤ s.failure_count

/-- A retry configuration with `max_retries=2, initial_delay=1,
max_delay=60, exponential_base=2`, jitter disabled. -/
def retryCfg1 : RetryConfig :=
  { max_retries := 2, initial_delay := 1, max_delay := 60
    exponential_base := 2, jitter := false }

/-- A retry configuration with `max_retries=1, initial_delay=1,
max_delay=60, exponential_base=2`, jitter enabled. -/
def retryCfg2 : RetryConfig :=
  { max_retries := 1, initial_delay := 1, max_delay := 60
    exponential_base := 2, jitter := true }

/-- A degenerate `random.random()` stream that always draws 0. -/
def randZero : ℕ → ℚ := fun _ => 0

/-- A `random.random()` stream that always draws 1/2. -/
def randHalf : ℕ → ℚ := fun _ => 1/2

/-- An OPEN breaker state (reachable: one matching failure at time 0 with
`failure_threshold = 1`). -/
def openBreakerState : BreakerState :=
  { state := CircuitState.opened
    failure_count := 1
    success_count := 0
    last_failure_time := some 0 }

/-- The composition `retry_with_backoff(...)` around
`CircuitBreaker.call`: the wrapped function of the retry loop is one
breaker-guarded call.  The threaded state is the breaker state paired with
a counter of how many times the underlying function was actually invoked;
the exception the breaker surfaces (its own `CircuitBreakerError`, the
underlying exception, or a `TypeError`) is what the retry loop
classifies. -/
def breakerAttempt {α : Type} (cfg : BreakerConfig) (expected : PyExc → Bool)
    (times : ℕ → ℚ) (underlying : ℕ → CallOutcome α PyExc) :
    BreakerState × ℕ → ℕ → (BreakerState × ℕ) × CallOutcome α PyExc :=
  fun s attempt =>
    let step := CircuitBreaker.call cfg expected s.1 (times attempt)
      (underlying attempt)
    ((step.1, if step.2.2 then s.2 + 1 else s.2),
      match step.2.1 with
      | CallResult.ret v => CallOutcome.ok v
      | CallResult.circuitBreakerError => CallOutcome.exn PyExc.circuitBreakerError
      | CallResult.raised e => CallOutcome.exn e
      | CallResult.typeError => CallOutcome.exn PyExc.typeError)

/-- The simulation relation between an in-memory breaker state and a
Redis store: the store denotes exactly that state, counters are
non-negative integers matching the naturals, recorded failure times are
positive (true of any `time.time()` reading on a real clock), and an OPEN
state always carries a recorded failure time. -/
def StoreRel (s : BreakerState) (r : RedisStore) : Prop :=
  r.getState = s.state ∧
  r.failures.getD 0 = (s.failure_count : ℤ) ∧
  r.successes.getD 0 = (s.success_count : ℤ) ∧
  r.last_failure = s.last_failure_time ∧
  (∀ v : ℚ, s.last_failure_time = some v → 0 < v) ∧
  (s.state = CircuitState.opened → s.last_failure_time ≠ none)

/-! ## Basic step lemmas for `CircuitBreaker.call` -/

/-- `runState` on the empty trace. -/
lemma runState_nil {α ε : Type} (cfg : BreakerConfig) (expected : ε → Bool)
    (s : BreakerState) : runState (α := α) cfg expected s [] = s := rfl

/-- `runState` peels one call off the front of the trace. -/
lemma runState_cons {α ε : Type} (cfg : BreakerConfig) (expected : ε → Bool)
    (s : BreakerState) (t : ℚ) (o : CallOutcome α ε)
    (tr : List (ℚ × CallOutcome α ε)) :
    runState cfg expected s ((t, o) :: tr) =
      runState cfg expected (CircuitBreaker.call cfg expected s t o).1 tr := rfl

/-- A call that does not arrive in OPEN state is admitted unchanged. -/
lemma admit_not_open (cfg : BreakerConfig) (s : BreakerState) (now : ℚ)
    (hs : s.state ≠ CircuitState.opened) :
    CircuitBreaker.admitPhase cfg s now = Admission.proceed s := by
  simp [CircuitBreaker.admitPhase, hs]

/-- A call arriving while OPEN before the recovery timeout has elapsed is
rejected. -/
lemma admit_open_reject (cfg : BreakerConfig) (s : BreakerState) (now lf : ℚ)
    (hs : s.state = CircuitState.opened) (hlf : s.last_failure_time = some lf)
    (ht : now - lf < cfg.recovery_timeout) :
    CircuitBreaker.admitPhase cfg s now = Admission.rejectOpen := by
  simp [CircuitBreaker.admitPhase, hs, hlf, not_le.mpr ht]

/-- A call arriving while OPEN after the recovery timeout has elapsed is
admitted as a HALF_OPEN trial with `success_count` reset. -/
lemma admit_open_eligible (cfg : BreakerConfig) (s : BreakerState) (now lf : ℚ)
    (hs : s.state = CircuitState.opened) (hlf : s.last_failure_time = some lf)
    (ht : cfg.recovery_timeout ≤ now - lf) :
    CircuitBreaker.admitPhase cfg s now =
      Admission.proceed { s with state := CircuitState.halfOpen
                                 success_count := 0 } := by
  simp [CircuitBreaker.admitPhase, hs, hlf, ht]

/-- The failure bookkeeping, written as one record. -/
lemma onFailure_eq (cfg : BreakerConfig) (s1 : BreakerState) (now : ℚ) :
    CircuitBreaker.onFailure cfg s1 now =
      { state := if cfg.failure_threshold ≤ s1.failure_count + 1
            then CircuitState.opened else s1.state
        failure_count := s1.failure_count + 1
        success_count := 0
        last_failure_time := some now } := by
  simp only [CircuitBreaker.onFailure, ge_iff_le]
  split <;> rfl

/-- A call in CLOSED or HALF_OPEN state whose function raises a matching
exception runs the failure bookkeeping and re-raises. -/
lemma call_not_open_exn {α ε : Type} (cfg : BreakerConfig) (expected : ε → Bool)
    (s : BreakerState) (t : ℚ) (e : ε)
    (hs : s.state ≠ CircuitState.opened) (he : expected e = true) :
    CircuitBreaker.call (α := α) cfg expected s t (CallOutcome.exn e) =
      (CircuitBreaker.onFailure cfg s t, CallResult.raised e, true) := by
  simp [CircuitBreaker.call, admit_not_open cfg s t hs, he]

/-- A call arriving while OPEN before the recovery timeout: rejected with
`CircuitBreakerError`, function not invoked, state unchanged. -/
lemma call_open_reject {α ε : Type} (cfg : BreakerConfig) (expected : ε → Bool)
    (s : BreakerState) (now : ℚ) (o : CallOutcome α ε) (lf : ℚ)
    (hs : s.state = CircuitState.opened) (hlf : s.last_failure_time = some lf)
    (ht : now - lf < cfg.recovery_timeout) :
    CircuitBreaker.call cfg expected s now o =
      (s, CallResult.circuitBreakerError, false) := by
  simp [CircuitBreaker.call, admit_open_reject cfg s now lf hs hlf ht]

/-- Folding a block of consecutive matching failures over a CLOSED
breaker, provided the total count stays within the threshold: the counts
accumulate, the last failure time is the last call's clock reading, and
the breaker ends OPEN exactly if the final count reached the threshold. -/
lemma runState_failures {α ε : Type} (cfg : BreakerConfig) (expected : ε → Bool)
    (tLast : ℚ) (eLast : ε) (heL : expected eLast = true) :
    ∀ (tr : List (ℚ × ε)) (s : BreakerState),
      s.state = CircuitState.closed →
      (∀ p ∈ tr, expected p.2 = true) →
      s.failure_count + tr.length + 1 ≤ cfg.failure_threshold →
      runState (α := α) cfg expected s
          ((tr ++ [(tLast, eLast)]).map fun p => (p.1, CallOutcome.exn p.2)) =
        { state := if cfg.failure_threshold ≤ s.failure_count + tr.length + 1
              then CircuitState.opened else CircuitState.closed
          failure_count := s.failure_count + tr.length + 1
          success_count := 0
          last_failure_time := some tLast } := by
  intro tr
  induction tr with
  | nil =>
    intro s hs _ _
    have hnopen : s.state ≠ CircuitState.opened := by rw [hs]; intro h; cases h
    simp only [List.nil_append, List.map_cons, List.map_nil, runState_cons,
      runState_nil, call_not_open_exn cfg expected s tLast eLast hnopen heL,
      onFailure_eq, List.length_nil, hs, Nat.add_zero]
  | cons p tr ih =>
    intro s hs hall hbound
    obtain ⟨t0, e0⟩ := p
    have he0 : expected e0 = true := hall (t0, e0) (List.mem_cons_self _ _)
    have hnopen : s.state ≠ CircuitState.opened := by rw [hs]; intro h; cases h
    simp only [List.length_cons] at hbound
    simp only [List.cons_append, List.map_cons, runState_cons,
      call_not_open_exn cfg expected s t0 e0 hnopen he0, onFailure_eq,
      if_neg (by omega : ¬ cfg.failure_threshold ≤ s.failure_count + 1), hs]
    rw [ih _ rfl (fun p hp => hall p (List.mem_cons_of_mem _ hp))
      (by dsimp only; omega)]
    dsimp only
    have h3 : s.failure_count + 1 + tr.length + 1
        = s.failure_count + (tr.length + 1) + 1 := by omega
    simp only [List.length_cons, h3]

/-- C1: a breaker with `failure_threshold = k ≥ 1`, started fresh, that
sees `k` consecutive calls whose wrapped function raises a matching
exception, ends in OPEN state; the very next call, made before
`recovery_timeout` has elapsed since the `k`-th failure, raises
`CircuitBreakerError` without invoking the wrapped function and leaves the
state unchanged.  The `k` failing calls are `tr ++ [(tk, ek)]`, so
`k = tr.length + 1 ≥ 1` automatically. -/
theorem C1_threshold_trip {α ε : Type} (cfg : BreakerConfig) (expected : ε → Bool)
    (tr : List (ℚ × ε)) (tk : ℚ) (ek : ε) (tNext : ℚ) (o : CallOutcome α ε)
    (hlen : tr.length + 1 = cfg.failure_threshold)
    (hexp : ∀ p ∈ tr, expected p.2 = true) (hek : expected ek = true)
    (hNext : tNext - tk < cfg.recovery_timeout) :
    (runState (α := α) cfg expected initialBreakerState
        ((tr ++ [(tk, ek)]).map fun p => (p.1, CallOutcome.exn p.2))).state
        = CircuitState.opened ∧
    CircuitBreaker.call cfg expected
        (runState (α := α) cfg expected initialBreakerState
          ((tr ++ [(tk, ek)]).map fun p => (p.1, CallOutcome.exn p.2)))
        tNext o =
      (runState (α := α) cfg expected initialBreakerState
          ((tr ++ [(tk, ek)]).map fun p => (p.1, CallOutcome.exn p.2)),
        CallResult.circuitBreakerError, false) := by
  have hrun := runState_failures (α := α) cfg expected tk ek hek tr
    initialBreakerState rfl hexp (by simp only [initialBreakerState]; omega)
  rw [hrun]
  have hpos : cfg.failure_threshold
      ≤ initialBreakerState.failure_count + tr.length + 1 := by
    simp only [initialBreakerState]; omega
  rw [if_pos hpos]
  refine ⟨rfl, ?_⟩
  exact call_open_reject cfg expected _ tNext o tk rfl rfl hNext

/-- Closed witness for C1: `failure_threshold = 2`, two matching failures
at times 0 and 1, next call at time 30 with `recovery_timeout = 60`. -/
theorem C1_threshold_trip_witness :
    (([((0 : ℚ), PyExc.apiError 500)] : List (ℚ × PyExc)).length + 1
        = breakerCfg1.failure_threshold ∧
      (30 : ℚ) - 1 < breakerCfg1.recovery_timeout) ∧
    ((runState (α := ℕ) breakerCfg1 isApiError initialBreakerState
        (([((0 : ℚ), PyExc.apiError 500)] ++ [((1 : ℚ), PyExc.apiError 502)]).map
          fun p => (p.1, CallOutcome.exn p.2))).state = CircuitState.opened ∧
      CircuitBreaker.call breakerCfg1 isApiError
          (runState (α := ℕ) breakerCfg1 isApiError initialBreakerState
            (([((0 : ℚ), PyExc.apiError 500)] ++ [((1 : ℚ), PyExc.apiError 502)]).map
              fun p => (p.1, CallOutcome.exn p.2)))
          30 (CallOutcome.ok 5) =
        (runState (α := ℕ) breakerCfg1 isApiError initialBreakerState
            (([((0 : ℚ), PyExc.apiError 500)] ++ [((1 : ℚ), PyExc.apiError 502)]).map
              fun p => (p.1, CallOutcome.exn p.2)),
          CallResult.circuitBreakerError, false)) :=
  ⟨⟨rfl, by norm_num [breakerCfg1]⟩,
    C1_threshold_trip breakerCfg1 isApiError [((0 : ℚ), PyExc.apiError 500)]
      1 (PyExc.apiError 502) 30 (CallOutcome.ok 5) rfl
      (by intro p hp; simp only [List.mem_singleton] at hp; subst hp; rfl)
      rfl (by norm_num [breakerCfg1])⟩

/-- Failure bookkeeping preserves the tripped-circuit invariant. -/
lemma trippedInv_onFailure (cfg : BreakerConfig) (s1 : BreakerState) (now : ℚ)
    (hinv : TrippedInv cfg s1) :
    TrippedInv cfg (CircuitBreaker.onFailure cfg s1 now) := by
  intro hpost
  simp only [onFailure_eq] at hpost ⊢
  by_cases h : cfg.failure_threshold ≤ s1.failure_count + 1
  · omega
  · rw [if_neg h] at hpost
    exact Nat.le_succ_of_le (hinv hpost)

/-- Success bookkeeping preserves the tripped-circuit invariant, for the
post-admission states (never OPEN). -/
lemma trippedInv_onSuccess (cfg : BreakerConfig) (s1 : BreakerState)
    (hs1 : s1.state ≠ CircuitState.opened) (hinv : TrippedInv cfg s1) :
    TrippedInv cfg (CircuitBreaker.onSuccess cfg s1) := by
  intro hpost
  simp only [CircuitBreaker.onSuccess] at hpost ⊢
  by_cases h1 : s1.state = CircuitState.halfOpen
  · rw [if_pos h1] at hpost ⊢
    by_cases h2 : cfg.success_threshold ≤ s1.success_count + 1
    · rw [if_pos h2] at hpost
      simp at hpost
    · rw [if_neg h2] at hpost ⊢
      exact hinv (Or.inr h1)
  · rw [if_neg h1] at hpost ⊢
    simp only at hpost
    rcases hpost with h | h
    · exact absurd h hs1
    · exact absurd h h1

/-- What the admission phase guarantees when it lets a call proceed: the
admitted state is never OPEN, satisfies the invariant, and keeps the
failure count. -/
lemma admit_proceed_facts (cfg : BreakerConfig) (s : BreakerState) (now : ℚ)
    (s1 : BreakerState)
    (h : CircuitBreaker.admitPhase cfg s now = Admission.proceed s1)
    (hinv : TrippedInv cfg s) :
    s1.state ≠ CircuitState.opened ∧ TrippedInv cfg s1 ∧
      s1.failure_count = s.failure_count := by
  unfold CircuitBreaker.admitPhase at h
  by_cases hs : s.state = CircuitState.opened
  · rw [if_pos hs] at h
    rcases hlf : s.last_failure_time with _ | lf
    · simp only [hlf] at h
      cases h
    · simp only [hlf] at h
      by_cases ht : now - lf ≥ cfg.recovery_timeout
      · rw [if_pos ht] at h
        cases h
        refine ⟨by simp, ?_, by simp⟩
        intro _
        simpa using hinv (Or.inl hs)
      · rw [if_neg ht] at h
        simp at h
  · rw [if_neg hs] at h
    cases h
    exact ⟨hs, hinv, rfl⟩

/-- One breaker call preserves the tripped-circuit invariant. -/
lemma trippedInv_call {α ε : Type} (cfg : BreakerConfig) (expected : ε → Bool)
    (s : BreakerState) (now : ℚ) (o : CallOutcome α ε)
    (hinv : TrippedInv cfg s) :
    TrippedInv cfg (CircuitBreaker.call cfg expected s now o).1 := by
  unfold CircuitBreaker.call
  rcases hadm : CircuitBreaker.admitPhase cfg s now with _ | _ | s1
  · simp only [hadm]; exact hinv
  · simp only [hadm]; exact hinv
  · obtain ⟨hns1, hinv1, _⟩ := admit_proceed_facts cfg s now s1 hadm hinv
    cases o with
    | ok v =>
      simp only [hadm]
      exact trippedInv_onSuccess cfg s1 hns1 hinv1
    | exn e =>
      simp only [hadm]
      by_cases he : expected e = true
      · simp only [if_pos he]
        exact trippedInv_onFailure cfg s1 now hinv1
      · simp only [if_neg he]
        exact hinv1

/-- Any trace of calls preserves the tripped-circuit invariant. -/
lemma trippedInv_runState {α ε : Type} (cfg : BreakerConfig)
    (expected : ε → Bool) :
    ∀ (tr : List (ℚ × CallOutcome α ε)) (s : BreakerState),
      TrippedInv cfg s → TrippedInv cfg (runState cfg expected s tr)
  | [], s, hinv => hinv
  | (t, o) :: tr, s, hinv => by
    rw [runState_cons]
    exact trippedInv_runState cfg expected tr _
      (trippedInv_call cfg expected s t o hinv)

/-- C2: from every reachable HALF_OPEN state, one call whose wrapped
function raises a matching exception transitions the breaker to OPEN,
resets `success_count` to 0, and updates `last_failure_time` to the
call's clock reading (re-raising the exception).  Reachability is from
the freshly constructed breaker via an arbitrary trace of calls. -/
theorem C2_halfOpen_failure_reopens {α ε : Type} (cfg : BreakerConfig)
    (expected : ε → Bool) (tr : List (ℚ × CallOutcome α ε)) (t : ℚ) (e : ε)
    (he : expected e = true)
    (hho : (runState cfg expected initialBreakerState tr).state
      = CircuitState.halfOpen) :
    CircuitBreaker.call (α := α) cfg expected
        (runState cfg expected initialBreakerState tr) t (CallOutcome.exn e) =
      ({ state := CircuitState.opened
         failure_count :=
           (runState cfg expected initialBreakerState tr).failure_count + 1
         success_count := 0
         last_failure_time := some t },
        CallResult.raised e, true) := by
  have hinv : TrippedInv cfg (runState cfg expected initialBreakerState tr) :=
    trippedInv_runState cfg expected tr initialBreakerState
      (fun h => by rcases h with h | h <;> simp [initialBreakerState] at h)
  have hk := hinv (Or.inr hho)
  rw [call_not_open_exn cfg expected _ t e (by rw [hho]; intro hc; cases hc) he,
    onFailure_eq]
  rw [if_pos (by omega)]

/-- Closed witness for C2: with `failure_threshold=1, recovery_timeout=1,
success_threshold=2`, the trace "failure at time 0, success at time 2"
reaches HALF_OPEN; a matching failure at time 3 then re-opens the
circuit. -/
theorem C2_halfOpen_failure_reopens_witness :
    (isApiError (PyExc.apiError 503) = true ∧
      (runState (α := ℕ) breakerCfg2 isApiError initialBreakerState
        [((0 : ℚ), CallOutcome.exn (PyExc.apiError 500)),
         ((2 : ℚ), CallOutcome.ok 7)]).state = CircuitState.halfOpen) ∧
    CircuitBreaker.call (α := ℕ) breakerCfg2 isApiError
        (runState (α := ℕ) breakerCfg2 isApiError initialBreakerState
          [((0 : ℚ), CallOutcome.exn (PyExc.apiError 500)),
           ((2 : ℚ), CallOutcome.ok 7)]) 3
        (CallOutcome.exn (PyExc.apiError 503)) =
      ({ state := CircuitState.opened
         failure_count :=
           (runState (α := ℕ) breakerCfg2 isApiError initialBreakerState
             [((0 : ℚ), CallOutcome.exn (PyExc.apiError 500)),
              ((2 : ℚ), CallOutcome.ok 7)]).failure_count + 1
         success_count := 0
         last_failure_time := some 3 },
        CallResult.raised (PyExc.apiError 503), true) := by
  have hho : (runState (α := ℕ) breakerCfg2 isApiError initialBreakerState
      [((0 : ℚ), CallOutcome.exn (PyExc.apiError 500)),
       ((2 : ℚ), CallOutcome.ok 7)]).state = CircuitState.halfOpen := by
    simp [runState, runCalls, CircuitBreaker.call, CircuitBreaker.admitPhase,
      CircuitBreaker.onSuccess, CircuitBreaker.onFailure, initialBreakerState,
      isApiError, breakerCfg2, (by norm_num : ((2:ℚ) - 0 ≥ 1) = True)]
  exact ⟨⟨rfl, hho⟩,
    C2_halfOpen_failure_reopens breakerCfg2 isApiError _ 3 _ rfl hho⟩

/-- C8 (amended): a call whose wrapped function raises an exception NOT
matching `expected_exception` propagates the exception and runs no failure
bookkeeping.  From CLOSED or HALF_OPEN the breaker state is entirely
unchanged.  When the call arrives while OPEN and is admitted as a recovery
trial, the OPEN→HALF_OPEN admission transition (made before the function
runs, irrespective of its outcome) persists — so `state` and
`success_count` do change in that one case, while `failure_count` and
`last_failure_time` are still untouched. -/
theorem C8_nonmatching_exception_frame {α ε : Type} (cfg : BreakerConfig)
    (expected : ε → Bool) (s : BreakerState) (now : ℚ) (e : ε)
    (he : expected e = false) :
    (s.state ≠ CircuitState.opened →
      CircuitBreaker.call (α := α) cfg expected s now (CallOutcome.exn e) =
        (s, CallResult.raised e, true)) ∧
    (∀ lf : ℚ, s.state = CircuitState.opened → s.last_failure_time = some lf →
      cfg.recovery_timeout ≤ now - lf →
      CircuitBreaker.call (α := α) cfg expected s now (CallOutcome.exn e) =
        ({ s with state := CircuitState.halfOpen, success_count := 0 },
          CallResult.raised e, true)) := by
  constructor
  · intro hs
    simp [CircuitBreaker.call, admit_not_open cfg s now hs, he]
  · intro lf hs hlf ht
    simp [CircuitBreaker.call, admit_open_eligible cfg s now lf hs hlf ht, he]

/-- Closed witness for C8: from the fresh CLOSED breaker, a
non-matching exception propagates with the state unchanged. -/
theorem C8_nonmatching_exception_frame_witness :
    (isApiError PyExc.valueError = false ∧
      initialBreakerState.state ≠ CircuitState.opened) ∧
    CircuitBreaker.call (α := ℕ) breakerCfg2 isApiError initialBreakerState 5
        (CallOutcome.exn PyExc.valueError) =
      (initialBreakerState, CallResult.raised PyExc.valueError, true) :=
  ⟨⟨rfl, by simp [initialBreakerState]⟩,
    (C8_nonmatching_exception_frame breakerCfg2 isApiError initialBreakerState
      5 PyExc.valueError rfl).1 (by simp [initialBreakerState])⟩

/-- Counterexample to C8 as stated: a breaker that is OPEN and eligible
for recovery testing (reachable: one matching failure at time 0 with
`failure_threshold = 1`, then a call at time 2 with
`recovery_timeout = 1`).  The wrapped function runs and raises a
NON-matching exception, which propagates — but the breaker state after
the call differs from the state before it (OPEN became HALF_OPEN at
admission), refuting "leaves all breaker state unchanged". -/
theorem C8_counterexample :
    isApiError PyExc.valueError = false ∧
    (runState (α := ℕ) breakerCfg2 isApiError initialBreakerState
        [((0 : ℚ), CallOutcome.exn (PyExc.apiError 500))]).state
      = CircuitState.opened ∧
    (CircuitBreaker.call (α := ℕ) breakerCfg2 isApiError
        (runState (α := ℕ) breakerCfg2 isApiError initialBreakerState
          [((0 : ℚ), CallOutcome.exn (PyExc.apiError 500))]) 2
        (CallOutcome.exn PyExc.valueError)).2
      = (CallResult.raised PyExc.valueError, true) ∧
    (CircuitBreaker.call (α := ℕ) breakerCfg2 isApiError
        (runState (α := ℕ) breakerCfg2 isApiError initialBreakerState
          [((0 : ℚ), CallOutcome.exn (PyExc.apiError 500))]) 2
        (CallOutcome.exn PyExc.valueError)).1
      ≠ runState (α := ℕ) breakerCfg2 isApiError initialBreakerState
          [((0 : ℚ), CallOutcome.exn (PyExc.apiError 500))] := by
  refine ⟨rfl, ?_, ?_, ?_⟩ <;>
    simp [runState, runCalls, CircuitBreaker.call, CircuitBreaker.admitPhase,
      CircuitBreaker.onSuccess, CircuitBreaker.onFailure, initialBreakerState,
      isApiError, breakerCfg2, (by norm_num : ((2:ℚ) - 0 ≥ 1) = True)]

/-! ## Retry lemmas -/

/-- If every attempt fails with a retryable exception, the retry loop
makes `left + 1` invocations from attempt index `attempt`, raises the
final attempt's exception, and sleeps once per non-final attempt. -/
lemma retryAux_allFail {α ε : Type} (cfg : RetryConfig) (retryable : ε → Bool)
    (rand : ℕ → ℚ) (errs : ℕ → ε) (hall : ∀ i, retryable (errs i) = true) :
    ∀ (left attempt : ℕ),
      retryAux (σ := Unit) (α := α) cfg retryable rand
          (fun s i => (s, CallOutcome.exn (errs i))) attempt left () =
        ((), RetryResult.raised (errs (attempt + left)), left + 1,
          (List.range' attempt left).map (sleptDelay cfg rand)) := by
  intro left
  induction left with
  | zero =>
    intro attempt
    simp [retryAux, hall attempt]
  | succ left ih =>
    intro attempt
    simp only [retryAux, hall attempt, if_pos]
    rw [ih (attempt + 1)]
    have h1 : attempt + 1 + left = attempt + (left + 1) := by omega
    simp [List.range'_succ, h1]

/-- If every attempt at the current state returns that same state and the
same retryable exception, the retry loop spins in place: `left + 1`
invocations, final raise of that exception, one sleep per non-final
attempt. -/
lemma retryAux_const_exn {σ α ε : Type} (cfg : RetryConfig)
    (retryable : ε → Bool) (rand : ℕ → ℚ)
    (f : σ → ℕ → σ × CallOutcome α ε) (s : σ) (e : ε)
    (hre : retryable e = true) (hf : ∀ i, f s i = (s, CallOutcome.exn e)) :
    ∀ (left attempt : ℕ),
      retryAux cfg retryable rand f attempt left s =
        (s, RetryResult.raised e, left + 1,
          (List.range' attempt left).map (sleptDelay cfg rand)) := by
  intro left
  induction left with
  | zero =>
    intro attempt
    simp [retryAux, hf attempt, hre]
  | succ left ih =>
    intro attempt
    simp only [retryAux, hf attempt, hre, if_pos]
    rw [ih (attempt + 1)]
    simp [List.range'_succ]

/-- Every delay the retry loop sleeps is `sleptDelay` at some attempt
index. -/
lemma retryAux_delay_mem {σ α ε : Type} (cfg : RetryConfig)
    (retryable : ε → Bool) (rand : ℕ → ℚ)
    (f : σ → ℕ → σ × CallOutcome α ε) :
    ∀ (left attempt : ℕ) (s : σ) (d : ℚ),
      d ∈ (retryAux cfg retryable rand f attempt left s).2.2.2 →
      ∃ i, d = sleptDelay cfg rand i := by
  intro left
  induction left with
  | zero =>
    intro attempt s d hd
    rcases ho : (f s attempt).2 with v | e <;>
      simp only [retryAux, ho] at hd
    · simp at hd
    · split_ifs at hd <;> simp_all
  | succ left ih =>
    intro attempt s d hd
    rcases ho : (f s attempt).2 with v | e <;>
      simp only [retryAux, ho] at hd
    · simp at hd
    · by_cases hr : retryable e = true
      · rw [if_pos hr] at hd
        simp only [List.mem_cons] at hd
        rcases hd with h | h
        · exact ⟨attempt, h⟩
        · exact ih (attempt + 1) _ d h
      · rw [if_neg hr] at hd
        simp at hd

/-- C4: for `max_retries = n` and a wrapped function that always raises a
retryable exception, the wrapper invokes the wrapped function exactly
`n + 1` times, then raises the exception observed on the final attempt
(attempt index `n`); one backoff sleep happens per non-final attempt. -/
theorem C4_retry_exhaustion {α ε : Type} (cfg : RetryConfig)
    (retryable : ε → Bool) (rand : ℕ → ℚ) (errs : ℕ → ε)
    (hall : ∀ i, retryable (errs i) = true) :
    retry_with_backoff (σ := Unit) (α := α) cfg retryable rand
        (fun s i => (s, CallOutcome.exn (errs i))) () =
      ((), RetryResult.raised (errs cfg.max_retries), cfg.max_retries + 1,
        (List.range cfg.max_retries).map (sleptDelay cfg rand)) := by
  unfold retry_with_backoff
  rw [retryAux_allFail cfg retryable rand errs hall cfg.max_retries 0]
  simp [List.range_eq_range']

/-- Closed witness for C4: `max_retries = 2`, a function always raising
`APIError(500)` (retryable under the default classification): 3
invocations, final raise, two sleeps. -/
theorem C4_retry_exhaustion_witness :
    (∀ i : ℕ, defaultRetryable ((fun _ => PyExc.apiError 500) i) = true) ∧
    retry_with_backoff (σ := Unit) (α := ℕ) retryCfg1 defaultRetryable randZero
        (fun s _ => (s, CallOutcome.exn (PyExc.apiError 500))) () =
      ((), RetryResult.raised (PyExc.apiError 500), retryCfg1.max_retries + 1,
        (List.range retryCfg1.max_retries).map (sleptDelay retryCfg1 randZero)) :=
  ⟨fun _ => rfl,
    C4_retry_exhaustion retryCfg1 defaultRetryable randZero
      (fun _ => PyExc.apiError 500) (fun _ => rfl)⟩

/-- Bounds on one slept delay: with positive `initial_delay`,
`exponential_base` and `max_delay` and a jitter draw in `[0, 1)`, the
jittered delay lies in `[backoff/2, backoff)`, never exceeds the
unjittered backoff value, which itself never exceeds `max_delay`. -/
lemma sleptDelay_bounds (cfg : RetryConfig) (rand : ℕ → ℚ) (i : ℕ)
    (h0 : 0 < cfg.initial_delay) (hb : 0 < cfg.exponential_base)
    (hm : 0 < cfg.max_delay) (hr : 0 ≤ rand i) (hr1 : rand i < 1) :
    (cfg.jitter = true → backoffDelay cfg i / 2 ≤ sleptDelay cfg rand i ∧
      sleptDelay cfg rand i < backoffDelay cfg i) ∧
    sleptDelay cfg rand i ≤ backoffDelay cfg i ∧
    backoffDelay cfg i ≤ cfg.max_delay := by
  have hpos : 0 < backoffDelay cfg i := by
    unfold backoffDelay
    exact lt_min (by positivity) hm
  have hmax : backoffDelay cfg i ≤ cfg.max_delay := min_le_right _ _
  unfold sleptDelay
  by_cases hj : cfg.jitter = true
  · rw [if_pos hj]
    have hlow : backoffDelay cfg i / 2
        ≤ backoffDelay cfg i * (1/2 + rand i * (1/2)) := by
      nlinarith [mul_nonneg (le_of_lt hpos) hr]
    have hhigh : backoffDelay cfg i * (1/2 + rand i * (1/2))
        < backoffDelay cfg i := by
      nlinarith [mul_pos hpos (by linarith : (0:ℚ) < 1 - rand i)]
    exact ⟨fun _ => ⟨hlow, hhigh⟩, le_of_lt hhigh, hmax⟩
  · rw [if_neg hj]
    exact ⟨fun h => absurd h hj, le_refl _, hmax⟩

/-- C5: every delay slept by `retry_with_backoff` is the jittered delay of
its attempt index `i`; the pre-jitter delay is
`min(initial_delay * exponential_base^i, max_delay)`; with jitter it lies
in `[0.5, 1.0)` times the pre-jitter value, so it never exceeds the
unjittered value nor `max_delay`. -/
theorem C5_backoff_delay_bounds {σ α ε : Type} (cfg : RetryConfig)
    (retryable : ε → Bool) (rand : ℕ → ℚ) (f : σ → ℕ → σ × CallOutcome α ε)
    (s : σ) (d : ℚ)
    (h0 : 0 < cfg.initial_delay) (hb : 0 < cfg.exponential_base)
    (hm : 0 < cfg.max_delay) (hr : ∀ i, 0 ≤ rand i ∧ rand i < 1)
    (hd : d ∈ (retry_with_backoff cfg retryable rand f s).2.2.2) :
    ∃ i, d = sleptDelay cfg rand i ∧
      backoffDelay cfg i
        = min (cfg.initial_delay * cfg.exponential_base ^ i) cfg.max_delay ∧
      (cfg.jitter = true → backoffDelay cfg i / 2 ≤ d ∧ d < backoffDelay cfg i) ∧
      d ≤ backoffDelay cfg i ∧ backoffDelay cfg i ≤ cfg.max_delay := by
  obtain ⟨i, hi⟩ :=
    retryAux_delay_mem cfg retryable rand f cfg.max_retries 0 s d hd
  obtain ⟨hj, hle, hmx⟩ :=
    sleptDelay_bounds cfg rand i h0 hb hm (hr i).1 (hr i).2
  subst hi
  exact ⟨i, rfl, rfl, hj, hle, hmx⟩

/-- Closed witness for C5: jittered configuration, all draws 1/2, a
function that always fails; the single slept delay satisfies the
bounds. -/
theorem C5_backoff_delay_bounds_witness :
    ((0:ℚ) < retryCfg2.initial_delay ∧ (0:ℚ) < retryCfg2.exponential_base ∧
      (0:ℚ) < retryCfg2.max_delay ∧ (∀ i, 0 ≤ randHalf i ∧ randHalf i < 1) ∧
      sleptDelay retryCfg2 randHalf 0 ∈
        (retry_with_backoff (σ := Unit) (α := ℕ) retryCfg2 defaultRetryable
          randHalf (fun s _ => (s, CallOutcome.exn (PyExc.apiError 500)))
          ()).2.2.2) ∧
    (∃ i, sleptDelay retryCfg2 randHalf 0 = sleptDelay retryCfg2 randHalf i ∧
      backoffDelay retryCfg2 i
        = min (retryCfg2.initial_delay * retryCfg2.exponential_base ^ i)
            retryCfg2.max_delay ∧
      (retryCfg2.jitter = true →
        backoffDelay retryCfg2 i / 2 ≤ sleptDelay retryCfg2 randHalf 0 ∧
        sleptDelay retryCfg2 randHalf 0 < backoffDelay retryCfg2 i) ∧
      sleptDelay retryCfg2 randHalf 0 ≤ backoffDelay retryCfg2 i ∧
      backoffDelay retryCfg2 i ≤ retryCfg2.max_delay) := by
  have hmem : sleptDelay retryCfg2 randHalf 0 ∈
      (retry_with_backoff (σ := Unit) (α := ℕ) retryCfg2 defaultRetryable
        randHalf (fun s _ => (s, CallOutcome.exn (PyExc.apiError 500)))
        ()).2.2.2 := by
    simp [retry_with_backoff, retryAux, retryCfg2, defaultRetryable]
  refine ⟨⟨by norm_num [retryCfg2], by norm_num [retryCfg2],
    by norm_num [retryCfg2], fun i => ⟨by norm_num [randHalf], by norm_num [randHalf]⟩,
    hmem⟩, ?_⟩
  exact C5_backoff_delay_bounds retryCfg2 defaultRetryable randHalf _ ()
    (sleptDelay retryCfg2 randHalf 0) (by norm_num [retryCfg2])
    (by norm_num [retryCfg2]) (by norm_num [retryCfg2])
    (fun i => ⟨by norm_num [randHalf], by norm_num [randHalf]⟩) hmem

/-- C3 (amended): in the composition `retry_with_backoff` around
`CircuitBreaker.call`, with the DEFAULT `retryable_exceptions =
(Exception,)` classification, the `CircuitBreakerError` raised by an Open
breaker (not yet eligible for recovery at any attempt time) matches the
retryable set — `CircuitBreakerError` subclasses `Exception` — so the
retry policy retries it: the breaker is invoked exactly
`max_retries + 1` times, a backoff sleep precedes every re-attempt, the
underlying function is never invoked (the invocation counter stays at
`k`), and the final `CircuitBreakerError` propagates.  Fail-fast requires
a `retryable_exceptions` tuple that excludes `CircuitBreakerError`. -/
theorem C3_open_breaker_default_retryable {α : Type} (bcfg : BreakerConfig)
    (rcfg : RetryConfig) (expected : PyExc → Bool) (rand : ℕ → ℚ)
    (times : ℕ → ℚ) (underlying : ℕ → CallOutcome α PyExc)
    (s0 : BreakerState) (k : ℕ) (lf : ℚ)
    (hopen : s0.state = CircuitState.opened)
    (hlf : s0.last_failure_time = some lf)
    (ht : ∀ i, times i - lf < bcfg.recovery_timeout) :
    retry_with_backoff rcfg defaultRetryable rand
        (breakerAttempt bcfg expected times underlying) (s0, k) =
      ((s0, k), RetryResult.raised PyExc.circuitBreakerError,
        rcfg.max_retries + 1,
        (List.range rcfg.max_retries).map (sleptDelay rcfg rand)) := by
  have hf : ∀ i, breakerAttempt bcfg expected times underlying (s0, k) i
      = ((s0, k), CallOutcome.exn PyExc.circuitBreakerError) := by
    intro i
    unfold breakerAttempt
    rw [call_open_reject bcfg expected s0 (times i) (underlying i) lf hopen hlf
      (ht i)]
    rfl
  unfold retry_with_backoff
  rw [retryAux_const_exn rcfg defaultRetryable rand _ _
    PyExc.circuitBreakerError rfl hf rcfg.max_retries 0]
  simp [List.range_eq_range']

/-- Closed witness for the amended C3, at `max_retries = 2`, an OPEN
breaker with `recovery_timeout = 60` and all attempts at time 1. -/
theorem C3_open_breaker_default_retryable_witness :
    (openBreakerState.state = CircuitState.opened ∧
      (∀ _i : ℕ, (1 : ℚ) - 0 < breakerCfg1.recovery_timeout)) ∧
    retry_with_backoff retryCfg1 defaultRetryable randZero
        (breakerAttempt breakerCfg1 isApiError (fun _ => (1 : ℚ))
          (fun _ => CallOutcome.ok (0 : ℕ))) (openBreakerState, 0) =
      ((openBreakerState, 0), RetryResult.raised PyExc.circuitBreakerError,
        retryCfg1.max_retries + 1,
        (List.range retryCfg1.max_retries).map (sleptDelay retryCfg1 randZero)) :=
  ⟨⟨rfl, fun _ => by norm_num [breakerCfg1]⟩,
    C3_open_breaker_default_retryable breakerCfg1 retryCfg1 isApiError randZero
      (fun _ => (1 : ℚ)) (fun _ => CallOutcome.ok 0) openBreakerState 0 0 rfl
      rfl (fun _ => by norm_num [breakerCfg1])⟩

/-- Counterexample to C3 as stated: with the default classification and an
Open breaker (`recovery_timeout = 60`, attempts at time 1), `max_retries
= 2` produces THREE invocations of the breaker — not one — and two
backoff sleeps — not zero — before `CircuitBreakerError` propagates. -/
theorem C3_counterexample :
    (retry_with_backoff retryCfg1 defaultRetryable randZero
        (breakerAttempt breakerCfg1 isApiError (fun _ => (1 : ℚ))
          (fun _ => CallOutcome.ok (0 : ℕ))) (openBreakerState, 0)).2.2.1
      = 3 ∧
    (retry_with_backoff retryCfg1 defaultRetryable randZero
        (breakerAttempt breakerCfg1 isApiError (fun _ => (1 : ℚ))
          (fun _ => CallOutcome.ok (0 : ℕ))) (openBreakerState, 0)).2.2.2.length
      = 2 ∧
    (retry_with_backoff retryCfg1 defaultRetryable randZero
        (breakerAttempt breakerCfg1 isApiError (fun _ => (1 : ℚ))
          (fun _ => CallOutcome.ok (0 : ℕ))) (openBreakerState, 0)).2.1
      = RetryResult.raised PyExc.circuitBreakerError := by
  have hf : ∀ i, breakerAttempt breakerCfg1 isApiError (fun _ => (1 : ℚ))
      (fun _ => CallOutcome.ok (0 : ℕ)) (openBreakerState, 0) i
      = ((openBreakerState, 0), CallOutcome.exn PyExc.circuitBreakerError) := by
    intro i
    unfold breakerAttempt
    rw [call_open_reject breakerCfg1 isApiError openBreakerState 1
      (CallOutcome.ok 0) 0 rfl rfl (by norm_num [breakerCfg1])]
    rfl
  have hrun := retryAux_const_exn retryCfg1 defaultRetryable randZero _ _
    PyExc.circuitBreakerError rfl hf retryCfg1.max_retries 0
  unfold retry_with_backoff
  rw [hrun]
  refine ⟨rfl, ?_, rfl⟩
  simp [retryCfg1, List.range']

/-! ## Token bucket lemmas -/

/-- After a refill, tokens never exceed capacity (the `min` clamp). -/
lemma _refill_le_capacity (b : TokenBucket) (now : ℚ) :
    (b._refill now).tokens ≤ b.capacity := min_le_left _ _

/-- After a refill with the clock not behind `last_update`, a bucket with
non-negative tokens, positive rate, and non-negative capacity still has
non-negative tokens. -/
lemma _refill_nonneg (b : TokenBucket) (now : ℚ) (hr : 0 < b.rate)
    (hc : 0 ≤ b.capacity) (ht : 0 ≤ b.tokens) (hnow : b.last_update ≤ now) :
    0 ≤ (b._refill now).tokens := by
  unfold TokenBucket._refill
  simp only
  refine le_min hc ?_
  have h1 : 0 ≤ (now - b.last_update) * b.rate :=
    mul_nonneg (by linarith) (le_of_lt hr)
  linarith

/-- `TokenBucket._refill` is monotonic in the clock reading, for a
non-negative rate: waiting longer never yields fewer tokens. -/
lemma _refill_mono (b : TokenBucket) (now1 now2 : ℚ) (hr : 0 ≤ b.rate)
    (h : now1 ≤ now2) :
    (b._refill now1).tokens ≤ (b._refill now2).tokens := by
  unfold TokenBucket._refill
  simp only
  refine min_le_min (le_refl _) ?_
  have := mul_le_mul_of_nonneg_right
    (sub_le_sub_right h b.last_update) hr
  linarith

/-- One bucket operation keeps tokens within `[0, capacity]` and leaves
rate and capacity unchanged, setting `last_update` to the operation
time. -/
lemma step_bounds (b : TokenBucket) (op : BucketOp)
    (hr : 0 < b.rate) (hc : 0 ≤ b.capacity) (ht : 0 ≤ b.tokens)
    (hnow : b.last_update ≤ op.time) (hamt : 0 ≤ op.amount) :
    0 ≤ (b.step op).tokens ∧ (b.step op).tokens ≤ b.capacity ∧
    (b.step op).capacity = b.capacity ∧ (b.step op).rate = b.rate ∧
    (b.step op).last_update = op.time := by
  have hle := _refill_le_capacity b op.time
  have hge := _refill_nonneg b op.time hr hc ht hnow
  cases op with
  | consume t n =>
    simp only [BucketOp.time, BucketOp.amount] at hle hge hnow hamt
    simp only [TokenBucket.step, TokenBucket.tryConsume]
    split_ifs with h
    · refine ⟨by simp only; linarith, by simp only; linarith, rfl, rfl, rfl⟩
    · exact ⟨hge, hle, rfl, rfl, rfl⟩
  | getAvail t =>
    simp only [BucketOp.time] at hle hge hnow
    exact ⟨hge, hle, rfl, rfl, rfl⟩

/-- Every token count observed after an operation of a time-ordered,
non-negative-amount operation sequence lies in `[0, capacity]`. -/
lemma runOps_bounds :
    ∀ (ops : List BucketOp) (b : TokenBucket),
      0 < b.rate → 0 ≤ b.capacity → 0 ≤ b.tokens →
      ChronoOps b.last_update ops →
      ∀ v ∈ (TokenBucket.runOps b ops).2, 0 ≤ v ∧ v ≤ b.capacity
  | [], b, _, _, _, _ => by simp [TokenBucket.runOps]
  | op :: ops, b, hr, hc, ht, hops => by
    obtain ⟨hnow, hamt, hrest⟩ := hops
    obtain ⟨h0, h1, hcap, hrate, hlast⟩ := step_bounds b op hr hc ht hnow hamt
    intro v hv
    simp only [TokenBucket.runOps, List.mem_cons] at hv
    rcases hv with rfl | hv
    · exact ⟨h0, h1⟩
    · have := runOps_bounds ops (b.step op) (hrate ▸ hr) (hcap ▸ hc) h0
        (hlast ▸ hrest) v hv
      rw [hcap] at this
      exact this

/-- C6 (amended): for a bucket with positive rate, non-negative effective
capacity and non-negative starting tokens, over any time-ordered sequence
of consume-check and `get_available_tokens` operations requesting
non-negative amounts, every observed token count lies in `[0, capacity]`;
and the refill is monotonic in elapsed time (a longer wait never yields
fewer tokens).  (A blocking `consume` is a sequence of such consume-check
iterations, all but the last failing, so its observations are covered.) -/
theorem C6_token_bounds (b : TokenBucket) (ops : List BucketOp)
    (hr : 0 < b.rate) (hc : 0 ≤ b.capacity) (ht : 0 ≤ b.tokens)
    (hops : ChronoOps b.last_update ops) :
    (∀ v ∈ (TokenBucket.runOps b ops).2, 0 ≤ v ∧ v ≤ b.capacity) ∧
    (∀ now1 now2 : ℚ, now1 ≤ now2 →
      (b._refill now1).tokens ≤ (b._refill now2).tokens) :=
  ⟨runOps_bounds ops b hr hc ht hops,
    fun now1 now2 h => _refill_mono b now1 now2 (le_of_lt hr) h⟩

/-- Closed witness for the amended C6: rate 1, default capacity, starting
full, one consume of 1 token at time 0 and one observation at time 2. -/
theorem C6_token_bounds_witness :
    ((0:ℚ) < (TokenBucket.init 1 none none 0).rate ∧
      (0:ℚ) ≤ (TokenBucket.init 1 none none 0).capacity ∧
      ChronoOps (TokenBucket.init 1 none none 0).last_update
        [BucketOp.consume 0 1, BucketOp.getAvail 2]) ∧
    ((∀ v ∈ (TokenBucket.runOps (TokenBucket.init 1 none none 0)
        [BucketOp.consume 0 1, BucketOp.getAvail 2]).2,
        0 ≤ v ∧ v ≤ (TokenBucket.init 1 none none 0).capacity) ∧
      (∀ now1 now2 : ℚ, now1 ≤ now2 →
        ((TokenBucket.init 1 none none 0)._refill now1).tokens ≤
          ((TokenBucket.init 1 none none 0)._refill now2).tokens)) := by
  have hch : ChronoOps (TokenBucket.init 1 none none 0).last_update
      [BucketOp.consume 0 1, BucketOp.getAvail 2] := by
    refine ⟨?_, ?_, ?_, ?_, trivial⟩ <;>
      norm_num [TokenBucket.init, BucketOp.time, BucketOp.amount]
  refine ⟨⟨by norm_num [TokenBucket.init], by norm_num [TokenBucket.init], hch⟩, ?_⟩
  exact C6_token_bounds (TokenBucket.init 1 none none 0)
    [BucketOp.consume 0 1, BucketOp.getAvail 2]
    (by norm_num [TokenBucket.init]) (by norm_num [TokenBucket.init])
    (by norm_num [TokenBucket.init]) hch

/-- Counterexample to C6 as stated: the constructor performs no
validation, so `TokenBucket(rate=1, initial_tokens=-1)` (rate positive,
as the claim allows any constructor arguments) immediately reports a
negative available-token count: `get_available_tokens` returns −1 < 0 at
the very first observation point. -/
theorem C6_counterexample :
    (0:ℚ) < (TokenBucket.init 1 none (some (-1)) 0).rate ∧
    ((TokenBucket.init 1 none (some (-1)) 0).get_available_tokens 0).1 = -1 ∧
    ¬ (0 ≤ ((TokenBucket.init 1 none (some (-1)) 0).get_available_tokens 0).1) := by
  norm_num [TokenBucket.init, TokenBucket.get_available_tokens,
    TokenBucket._refill]

/-- When more tokens are requested than the bucket can ever hold, the
locked check always fails: the post-refill count is clamped to capacity,
which is below the request. -/
lemma tryConsume_over_capacity (b : TokenBucket) (t n : ℚ)
    (hn : b.capacity < n) :
    b.tryConsume t n = (false, b._refill t) := by
  unfold TokenBucket.tryConsume
  rw [if_neg]
  intro hge
  exact absurd (le_trans hge (_refill_le_capacity b t)) (not_le.mpr hn)

/-- A refill does not change the capacity. -/
lemma _refill_capacity (b : TokenBucket) (t : ℚ) :
    (b._refill t).capacity = b.capacity := rfl

/-- Non-blocking over-capacity iteration: immediate rejection. -/
lemma consumeLoop_over_nonblock (b : TokenBucket) (n : ℚ)
    (hn : b.capacity < n) (tmo : Option ℚ) (start tR tC : ℚ)
    (rest : List (ℚ × ℚ)) :
    TokenBucket.consumeLoop n false tmo start b ((tR, tC) :: rest)
      = some (false, b._refill tR) := by
  simp [TokenBucket.consumeLoop, tryConsume_over_capacity b tR n hn]

/-- Blocking over-capacity iteration without timeout: loop again. -/
lemma consumeLoop_over_block_none (b : TokenBucket) (n : ℚ)
    (hn : b.capacity < n) (start tR tC : ℚ) (rest : List (ℚ × ℚ)) :
    TokenBucket.consumeLoop n true none start b ((tR, tC) :: rest)
      = TokenBucket.consumeLoop n true none start (b._refill tR) rest := by
  simp [TokenBucket.consumeLoop, tryConsume_over_capacity b tR n hn]

/-- Blocking over-capacity iteration whose elapsed wait has reached the
timeout: rejection. -/
lemma consumeLoop_over_block_timeout (b : TokenBucket) (n : ℚ)
    (hn : b.capacity < n) (tmo start tR tC : ℚ) (rest : List (ℚ × ℚ))
    (ht : tC - start ≥ tmo) :
    TokenBucket.consumeLoop n true (some tmo) start b ((tR, tC) :: rest)
      = some (false, b._refill tR) := by
  simp [TokenBucket.consumeLoop, tryConsume_over_capacity b tR n hn, ht]

/-- Blocking over-capacity iteration still within the timeout: loop
again. -/
lemma consumeLoop_over_block_wait (b : TokenBucket) (n : ℚ)
    (hn : b.capacity < n) (tmo start tR tC : ℚ) (rest : List (ℚ × ℚ))
    (ht : ¬ tC - start ≥ tmo) :
    TokenBucket.consumeLoop n true (some tmo) start b ((tR, tC) :: rest)
      = TokenBucket.consumeLoop n true (some tmo) start (b._refill tR) rest := by
  simp [TokenBucket.consumeLoop, tryConsume_over_capacity b tR n hn, ht]

/-- C7: requesting `n > capacity` tokens can never succeed.
(1) no iteration of the consume loop ever returns `True`;
(2) non-blocking consume returns `False` at its first iteration;
(3) blocking consume with a timeout returns `False` as soon as some
iteration observes `elapsed ≥ timeout`;
(4) blocking consume without a timeout never returns: for every finite
list of loop iterations the loop is still running (the check threshold is
unreachable), i.e. the call does not terminate. -/
theorem C7_overcapacity_consume (b : TokenBucket) (n : ℚ)
    (hn : b.capacity < n) (start : ℚ) :
    (∀ (blk : Bool) (tmo : Option ℚ) (iters : List (ℚ × ℚ))
        (r : Bool × TokenBucket),
      TokenBucket.consume b n blk tmo start iters = some r → r.1 = false) ∧
    (∀ (tmo : Option ℚ) (tRefill tCheck : ℚ) (rest : List (ℚ × ℚ)),
      ∃ b', TokenBucket.consume b n false tmo start ((tRefill, tCheck) :: rest)
        = some (false, b')) ∧
    (∀ (tmo : ℚ) (iters : List (ℚ × ℚ)),
      (∃ p ∈ iters, tmo ≤ p.2 - start) →
      ∃ b', TokenBucket.consume b n true (some tmo) start iters
        = some (false, b')) ∧
    (∀ iters : List (ℚ × ℚ),
      TokenBucket.consume b n true none start iters = none) := by
  unfold TokenBucket.consume
  refine ⟨?_, ?_, ?_, ?_⟩
  · -- (1) never `True`
    intro blk tmo iters
    induction iters generalizing b with
    | nil => intro r h; simp [TokenBucket.consumeLoop] at h
    | cons p rest ih =>
      intro r h
      obtain ⟨tR, tC⟩ := p
      have hn' : (b._refill tR).capacity < n := by
        rw [_refill_capacity]; exact hn
      cases blk with
      | false =>
        rw [consumeLoop_over_nonblock b n hn tmo start tR tC rest] at h
        cases h; rfl
      | true =>
        cases tmo with
        | none =>
          rw [consumeLoop_over_block_none b n hn start tR tC rest] at h
          exact ih (b._refill tR) hn' r h
        | some tmo' =>
          by_cases ht : tC - start ≥ tmo'
          · rw [consumeLoop_over_block_timeout b n hn tmo' start tR tC rest ht]
              at h
            cases h; rfl
          · rw [consumeLoop_over_block_wait b n hn tmo' start tR tC rest ht]
              at h
            exact ih (b._refill tR) hn' r h
  · -- (2) non-blocking rejects at once
    intro tmo tRefill tCheck rest
    exact ⟨b._refill tRefill,
      consumeLoop_over_nonblock b n hn tmo start tRefill tCheck rest⟩
  · -- (3) timeout reached gives `False`
    intro tmo iters
    induction iters generalizing b with
    | nil => intro h; simp at h
    | cons p rest ih =>
      intro h
      obtain ⟨tR, tC⟩ := p
      have hn' : (b._refill tR).capacity < n := by
        rw [_refill_capacity]; exact hn
      by_cases ht : tC - start ≥ tmo
      · exact ⟨b._refill tR,
          consumeLoop_over_block_timeout b n hn tmo start tR tC rest ht⟩
      · have hmem : ∃ p ∈ rest, tmo ≤ p.2 - start := by
          rcases h with ⟨q, hq, hqto⟩
          rcases List.mem_cons.mp hq with rfl | hq'
          · exact absurd hqto (by simpa using ht)
          · exact ⟨q, hq', hqto⟩
        obtain ⟨b', hb'⟩ := ih (b._refill tR) hn' hmem
        exact ⟨b',
          (consumeLoop_over_block_wait b n hn tmo start tR tC rest ht).trans
            hb'⟩
  · -- (4) no timeout: the loop never returns
    intro iters
    induction iters generalizing b with
    | nil => rfl
    | cons p rest ih =>
      obtain ⟨tR, tC⟩ := p
      have hn' : (b._refill tR).capacity < n := by
        rw [_refill_capacity]; exact hn
      rw [consumeLoop_over_block_none b n hn start tR tC rest]
      exact ih (b._refill tR) hn'

/-- Closed witness for C7: a bucket of capacity 1 asked for 5 tokens;
non-blocking rejects at once, a 2-second timeout rejects at the iteration
observing elapsed 3, and without timeout the loop is still running after
three iterations. -/
theorem C7_overcapacity_consume_witness :
    ((TokenBucket.init 1 none none 0).capacity < 5) ∧
    (∃ b', TokenBucket.consume (TokenBucket.init 1 none none 0) 5 false none 0
      [((0 : ℚ), (0 : ℚ))] = some (false, b')) ∧
    (∃ b', TokenBucket.consume (TokenBucket.init 1 none none 0) 5 true (some 2)
      0 [((0 : ℚ), (0 : ℚ)), ((3 : ℚ), (3 : ℚ))] = some (false, b')) ∧
    TokenBucket.consume (TokenBucket.init 1 none none 0) 5 true none 0
      [((0 : ℚ), (0 : ℚ)), ((1 : ℚ), (1 : ℚ)), ((2 : ℚ), (2 : ℚ))] = none := by
  have hn : (TokenBucket.init 1 none none 0).capacity < 5 := by
    norm_num [TokenBucket.init]
  obtain ⟨h1, h2, h3, h4⟩ :=
    C7_overcapacity_consume (TokenBucket.init 1 none none 0) 5 hn 0
  refine ⟨hn, h2 none 0 0 [], h3 2 _ ⟨((3 : ℚ), (3 : ℚ)), ?_, by norm_num⟩, h4 _⟩
  simp

/-- From a full bucket (`tokens = capacity`), one consume at the
construction clock reading succeeds for any request within the token
count. -/
lemma tryConsume_full (b : TokenBucket) (n : ℚ) (hn : n ≤ b.tokens)
    (htc : b.tokens ≤ b.capacity) :
    (b.tryConsume b.last_update n).1 = true := by
  have hcond : (b._refill b.last_update).tokens ≥ n := by
    unfold TokenBucket._refill
    simp only [sub_self, zero_mul, add_zero]
    rw [min_eq_right htc]
    exact hn
  unfold TokenBucket.tryConsume
  rw [if_pos hcond]

/-- C10: `TokenBucket.__init__` tests `capacity or rate`, so a capacity
argument of 0 — like `None` — yields an effective capacity of `rate`, not
0; an omitted `initial_tokens` starts the bucket full (`tokens =` the
effective capacity, whatever the capacity argument); and a burst of up to
the effective capacity succeeds immediately after construction. -/
theorem C10_truthy_capacity (rate t0 n : ℚ) (hnr : n ≤ rate) :
    (TokenBucket.init rate (some 0) none t0).capacity = rate ∧
    (TokenBucket.init rate none none t0).capacity = rate ∧
    (∀ c : Option ℚ, (TokenBucket.init rate c none t0).tokens
      = (TokenBucket.init rate c none t0).capacity) ∧
    ((TokenBucket.init rate (some 0) none t0).tryConsume t0 n).1 = true := by
  have hcap : (TokenBucket.init rate (some 0) none t0).capacity = rate := by
    simp [TokenBucket.init]
  have htok : (TokenBucket.init rate (some 0) none t0).tokens = rate := by
    simp [TokenBucket.init]
  refine ⟨hcap, rfl, fun c => rfl, ?_⟩
  have hlast : (TokenBucket.init rate (some 0) none t0).last_update = t0 := rfl
  have := tryConsume_full (TokenBucket.init rate (some 0) none t0) n
    (by rw [htok]; exact hnr) (by rw [htok, hcap])
  rw [hlast] at this
  exact this

/-- Closed witness for C10 at `rate = 5`, burst request of 5 tokens. -/
theorem C10_truthy_capacity_witness :
    ((0 : ℚ) ≤ 5 ∧ (5 : ℚ) ≤ 5) ∧
    ((TokenBucket.init 5 (some 0) none 0).capacity = 5 ∧
      (TokenBucket.init 5 none none 0).capacity = 5 ∧
      (∀ c : Option ℚ, (TokenBucket.init 5 c none 0).tokens
        = (TokenBucket.init 5 c none 0).capacity) ∧
      ((TokenBucket.init 5 (some 0) none 0).tryConsume 0 5).1 = true) :=
  ⟨⟨by norm_num, le_refl 5⟩,
    C10_truthy_capacity 5 0 5 (le_refl 5)⟩

/-! ## Equivalence of the in-memory and Redis-backed breakers -/

/-- Redis admission of a call that does not arrive in (stored) OPEN
state. -/
lemma redisAdmit_not_open (cfg : BreakerConfig) (r : RedisStore) (now : ℚ)
    (h : r.getState ≠ CircuitState.opened) :
    RedisCircuitBreaker.admitPhase cfg r now = Admission.proceed r := by
  simp [RedisCircuitBreaker.admitPhase, h]

/-- Redis admission while OPEN with a truthy stored timestamp and the
timeout elapsed: HALF_OPEN trial. -/
lemma redisAdmit_open_eligible (cfg : BreakerConfig) (r : RedisStore)
    (now lf : ℚ) (h : r.getState = CircuitState.opened)
    (hlf : r.last_failure = some lf) (h0 : lf ≠ 0)
    (ht : now - lf ≥ cfg.recovery_timeout) :
    RedisCircuitBreaker.admitPhase cfg r now =
      Admission.proceed { r with state := some CircuitState.halfOpen
                                 successes := some 0 } := by
  simp [RedisCircuitBreaker.admitPhase, h, hlf, h0, ht]

/-- Redis admission while OPEN when the stored-timestamp condition fails
(absent key, stored 0, or timeout not yet elapsed): rejection. -/
lemma redisAdmit_open_reject (cfg : BreakerConfig) (r : RedisStore)
    (now lf : ℚ) (h : r.getState = CircuitState.opened)
    (hlf : r.last_failure = some lf)
    (hc : ¬ (lf ≠ 0 ∧ now - lf ≥ cfg.recovery_timeout)) :
    RedisCircuitBreaker.admitPhase cfg r now = Admission.rejectOpen := by
  simp only [RedisCircuitBreaker.admitPhase, if_pos h, hlf]
  rw [if_neg hc]

/-- Success bookkeeping commutes with the simulation relation (for
post-admission states, which are never OPEN). -/
lemma storeRel_onSuccess (cfg : BreakerConfig) (s1 : BreakerState)
    (r1 : RedisStore) (hrel : StoreRel s1 r1)
    (hs1 : s1.state ≠ CircuitState.opened) :
    StoreRel (CircuitBreaker.onSuccess cfg s1)
      (RedisCircuitBreaker.onSuccess cfg r1) := by
  obtain ⟨hst, hfc, hsc, hlf, hpos, hop⟩ := hrel
  unfold CircuitBreaker.onSuccess RedisCircuitBreaker.onSuccess
  rw [hst, hsc]
  by_cases h1 : s1.state = CircuitState.halfOpen
  · rw [if_pos h1, if_pos h1]
    by_cases h2 : cfg.success_threshold ≤ s1.success_count + 1
    · rw [if_pos (show (s1.success_count : ℤ) + 1 ≥ (cfg.success_threshold : ℤ)
          by exact_mod_cast h2),
        if_pos (show s1.success_count + 1 ≥ cfg.success_threshold from h2)]
      refine ⟨rfl, by simp, by push_cast; rfl, hlf, hpos, ?_⟩
      intro h
      simp at h
    · rw [if_neg (show ¬ (s1.success_count : ℤ) + 1 ≥ (cfg.success_threshold : ℤ)
          by intro hc; exact h2 (by exact_mod_cast hc)),
        if_neg (show ¬ s1.success_count + 1 ≥ cfg.success_threshold from h2)]
      refine ⟨hst, hfc, by push_cast; rfl, hlf, hpos, ?_⟩
      intro h
      rw [show s1.state = CircuitState.opened from h] at h1
      cases h1
  · rw [if_neg h1, if_neg h1]
    refine ⟨hst, by simp, hsc, hlf, hpos, ?_⟩
    intro h
    exact absurd (show s1.state = CircuitState.opened from h) hs1

/-- Failure bookkeeping commutes with the simulation relation (for a
positive clock reading). -/
lemma storeRel_onFailure (cfg : BreakerConfig) (s1 : BreakerState)
    (r1 : RedisStore) (now : ℚ) (hrel : StoreRel s1 r1) (hnow : 0 < now) :
    StoreRel (CircuitBreaker.onFailure cfg s1 now)
      (RedisCircuitBreaker.onFailure cfg r1 now) := by
  obtain ⟨hst, hfc, hsc, hlf, hpos, hop⟩ := hrel
  unfold RedisCircuitBreaker.onFailure
  rw [onFailure_eq, hfc]
  by_cases h2 : cfg.failure_threshold ≤ s1.failure_count + 1
  · rw [if_pos (show (s1.failure_count : ℤ) + 1 ≥ (cfg.failure_threshold : ℤ)
        by exact_mod_cast h2),
      if_pos (show cfg.failure_threshold ≤ s1.failure_count + 1 from h2)]
    refine ⟨rfl, by push_cast; rfl, by simp, rfl, ?_, ?_⟩
    · intro v hv
      cases hv
      exact hnow
    · intro _
      simp
  · rw [if_neg (show ¬ (s1.failure_count : ℤ) + 1 ≥ (cfg.failure_threshold : ℤ)
        by intro hc; exact h2 (by exact_mod_cast hc)),
      if_neg (show ¬ cfg.failure_threshold ≤ s1.failure_count + 1 from h2)]
    refine ⟨hst, by push_cast; rfl, by simp, rfl, ?_, ?_⟩
    · intro v hv
      cases hv
      exact hnow
    · intro _
      simp

/-- Admission equivalence: related states with a positive clock either
both reject with `CircuitBreakerError` or both proceed with related,
non-OPEN states.  (Positivity matters: the Redis truthiness test treats a
stored timestamp 0 as absent.) -/
lemma admit_equiv (cfg : BreakerConfig) (s : BreakerState) (r : RedisStore)
    (now : ℚ) (hrel : StoreRel s r) :
    (CircuitBreaker.admitPhase cfg s now = Admission.rejectOpen ∧
      RedisCircuitBreaker.admitPhase cfg r now = Admission.rejectOpen) ∨
    (∃ s1 r1, CircuitBreaker.admitPhase cfg s now = Admission.proceed s1 ∧
      RedisCircuitBreaker.admitPhase cfg r now = Admission.proceed r1 ∧
      StoreRel s1 r1 ∧ s1.state ≠ CircuitState.opened) := by
  obtain ⟨hst, hfc, hsc, hlf, hpos, hop⟩ := hrel
  by_cases hs : s.state = CircuitState.opened
  · rcases hv : s.last_failure_time with _ | v
    · exact absurd hv (hop hs)
    · have hv0 : 0 < v := hpos v hv
      have hrlf : r.last_failure = some v := by rw [hlf, hv]
      by_cases ht : now - v ≥ cfg.recovery_timeout
      · have hrel1 : StoreRel
            { s with state := CircuitState.halfOpen, success_count := 0 }
            { r with state := some CircuitState.halfOpen
                     successes := some 0 } := by
          refine ⟨rfl, hfc, by simp, hlf, ?_, ?_⟩
          · intro w hw
            exact hpos w hw
          · intro h
            cases h
        exact Or.inr ⟨_, _, admit_open_eligible cfg s now v hs hv ht,
          redisAdmit_open_eligible cfg r now v (hst.trans hs) hrlf
            (ne_of_gt hv0) ht, hrel1, by simp⟩
      · exact Or.inl ⟨admit_open_reject cfg s now v hs hv (not_le.mp ht),
          redisAdmit_open_reject cfg r now v (hst.trans hs) hrlf
            (fun hc => ht hc.2)⟩
  · exact Or.inr ⟨s, r, admit_not_open cfg s now hs,
      redisAdmit_not_open cfg r now (by rw [hst]; exact hs),
      ⟨hst, hfc, hsc, hlf, hpos, hop⟩, hs⟩

/-- One call at a positive clock reading: the in-memory breaker and the
Redis-backed breaker produce the same result and invoke-flag, and their
new states remain related. -/
lemma call_equiv {α ε : Type} (cfg : BreakerConfig) (expected : ε → Bool)
    (s : BreakerState) (r : RedisStore) (now : ℚ) (o : CallOutcome α ε)
    (hrel : StoreRel s r) (hnow : 0 < now) :
    (RedisCircuitBreaker.call cfg expected r now o).2
      = (CircuitBreaker.call cfg expected s now o).2 ∧
    StoreRel (CircuitBreaker.call cfg expected s now o).1
      (RedisCircuitBreaker.call cfg expected r now o).1 := by
  rcases admit_equiv cfg s r now hrel with ⟨hma, hra⟩ |
    ⟨s1, r1, hma, hra, hrel1, hs1⟩
  · unfold CircuitBreaker.call RedisCircuitBreaker.call
    simp only [hma, hra]
    exact ⟨by trivial, hrel⟩
  · unfold CircuitBreaker.call RedisCircuitBreaker.call
    simp only [hma, hra]
    cases o with
    | ok v => exact ⟨by trivial, storeRel_onSuccess cfg s1 r1 hrel1 hs1⟩
    | exn e =>
      by_cases he : expected e = true
      · simp only [he, if_pos]
        exact ⟨by trivial, storeRel_onFailure cfg s1 r1 now hrel1 hnow⟩
      · simp only [if_neg he]
        exact ⟨by trivial, hrel1⟩

/-- Trace equivalence: from related states, a trace of calls at positive
clock times yields identical per-call results and related final
states. -/
lemma run_equiv {α ε : Type} (cfg : BreakerConfig) (expected : ε → Bool) :
    ∀ (tr : List (ℚ × CallOutcome α ε)) (s : BreakerState) (r : RedisStore),
      StoreRel s r → (∀ p ∈ tr, 0 < p.1) →
      (runRedisCalls cfg expected r tr).2 = (runCalls cfg expected s tr).2 ∧
      StoreRel (runCalls cfg expected s tr).1
        (runRedisCalls cfg expected r tr).1
  | [], s, r, hrel, _ => ⟨rfl, hrel⟩
  | (t, o) :: tr, s, r, hrel, hpos => by
    have ht : 0 < t := hpos (t, o) (List.mem_cons_self _ _)
    obtain ⟨hres, hrel1⟩ := call_equiv cfg expected s r t o hrel ht
    obtain ⟨hres2, hrel2⟩ := run_equiv cfg expected tr
      (CircuitBreaker.call cfg expected s t o).1
      (RedisCircuitBreaker.call cfg expected r t o).1 hrel1
      (fun p hp => hpos p (List.mem_cons_of_mem _ hp))
    refine ⟨?_, hrel2⟩
    simp only [runCalls, runRedisCalls]
    rw [hres2, hres]

/-- The freshly initialized store denotes the freshly constructed
breaker. -/
lemma storeRel_init : StoreRel initialBreakerState emptyStore.init := by
  refine ⟨by decide, by decide, by decide, by decide, ?_, ?_⟩
  · intro v hv
    simp [initialBreakerState] at hv
  · intro h
    simp [initialBreakerState] at h

/-- A store related to a state abstracts to it. -/
lemma storeRel_abs (s : BreakerState) (r : RedisStore) (hrel : StoreRel s r) :
    r.abs = s := by
  obtain ⟨hst, hfc, hsc, hlf, _, _⟩ := hrel
  unfold RedisStore.abs
  rw [hst, hfc, hsc, hlf]
  simp

/-- C9 (amended): for a single sequential caller with matching
configuration, an initially empty store, and every call made at a
positive clock time (true of real `time.time()` readings), the
Redis-backed breaker and the in-memory breaker are equivalent: every call
in the trace returns, raises `CircuitBreakerError`, or propagates the
wrapped function's exception identically (with identical invoke-flags),
and the final store contents denote exactly the final in-memory state.
The positivity hypothesis is forced by the Redis variant's truthiness
test on the stored timestamp (see the counterexample at time 0). -/
theorem C9_redis_equiv {α ε : Type} (cfg : BreakerConfig) (expected : ε → Bool)
    (tr : List (ℚ × CallOutcome α ε)) (hpos : ∀ p ∈ tr, 0 < p.1) :
    (runRedisCalls cfg expected emptyStore.init tr).2
      = (runCalls cfg expected initialBreakerState tr).2 ∧
    (runRedisCalls cfg expected emptyStore.init tr).1.abs
      = (runCalls cfg expected initialBreakerState tr).1 := by
  obtain ⟨hres, hrel⟩ := run_equiv cfg expected tr initialBreakerState
    emptyStore.init storeRel_init hpos
  exact ⟨hres, storeRel_abs _ _ hrel⟩

/-- Closed witness for the amended C9: a failure at time 1 and a success
at time 3 (both positive) behave identically in both variants. -/
theorem C9_redis_equiv_witness :
    (∀ p ∈ [((1 : ℚ), CallOutcome.exn (PyExc.apiError 500)),
        ((3 : ℚ), CallOutcome.ok (7 : ℕ))], 0 < p.1) ∧
    ((runRedisCalls breakerCfg2 isApiError emptyStore.init
        [((1 : ℚ), CallOutcome.exn (PyExc.apiError 500)),
         ((3 : ℚ), CallOutcome.ok (7 : ℕ))]).2
      = (runCalls breakerCfg2 isApiError initialBreakerState
        [((1 : ℚ), CallOutcome.exn (PyExc.apiError 500)),
         ((3 : ℚ), CallOutcome.ok (7 : ℕ))]).2 ∧
    (runRedisCalls breakerCfg2 isApiError emptyStore.init
        [((1 : ℚ), CallOutcome.exn (PyExc.apiError 500)),
         ((3 : ℚ), CallOutcome.ok (7 : ℕ))]).1.abs
      = (runCalls breakerCfg2 isApiError initialBreakerState
        [((1 : ℚ), CallOutcome.exn (PyExc.apiError 500)),
         ((3 : ℚ), CallOutcome.ok (7 : ℕ))]).1) := by
  have hpos : ∀ p ∈ [((1 : ℚ), CallOutcome.exn (PyExc.apiError 500)),
      ((3 : ℚ), CallOutcome.ok (7 : ℕ))], 0 < p.1 := by
    intro p hp
    simp only [List.mem_cons, List.not_mem_nil, or_false] at hp
    rcases hp with rfl | rfl <;> norm_num
  exact ⟨hpos, C9_redis_equiv breakerCfg2 isApiError _ hpos⟩

/-- Counterexample to C9 as stated (at arbitrary clock times): a matching
failure at clock time 0 stores `last_failure = 0`; at the next call the
in-memory breaker admits a HALF_OPEN trial (`0 ≠ None`), but the Redis
variant's `if last_failure and ...` treats the stored `0.0` as falsy and
rejects with `CircuitBreakerError`, so the two variants produce different
results for the same trace. -/
theorem C9_counterexample :
    (runCalls breakerCfg3 isApiError initialBreakerState
        [((0 : ℚ), CallOutcome.exn (PyExc.apiError 500)),
         ((1 : ℚ), CallOutcome.ok (7 : ℕ))]).2
      ≠ (runRedisCalls breakerCfg3 isApiError emptyStore.init
        [((0 : ℚ), CallOutcome.exn (PyExc.apiError 500)),
         ((1 : ℚ), CallOutcome.ok (7 : ℕ))]).2 := by
  simp [runCalls, runRedisCalls, CircuitBreaker.call, CircuitBreaker.admitPhase,
    CircuitBreaker.onSuccess, CircuitBreaker.onFailure,
    RedisCircuitBreaker.call, RedisCircuitBreaker.admitPhase,
    RedisCircuitBreaker.onSuccess, RedisCircuitBreaker.onFailure,
    RedisStore.getState, RedisStore.init, emptyStore, initialBreakerState,
    isApiError, breakerCfg3, (by norm_num : ((1:ℚ) - 0 ≥ 1) = True)]
